import Mathlib

/-!
# Verification of the Hospital-Queue-Management assignment core

Shallow embedding of `backend/ml_queue_manager.py` (class `QueueMLModel`):
doctor assignment (`assign_doctor`), patient priority scoring
(`calculate_priority`) and model retraining (`update_model`), together with
the construction path (`__init__`, `_load_model`, `_train_initial_model`).

Python floats are modelled as rationals (`ℚ`); the sklearn estimators
(`StandardScaler`, `RandomForestRegressor`) are opaque fitted functions:
a fitted scaler is a function `FeatureVec → FeatureVec`, a fitted regressor
a function `FeatureVec → ℚ`, and an unfitted estimator is `none` (calling
`transform`/`predict` on it raises sklearn's `NotFittedError`).  The fitting
procedures themselves are abstract parameters (`TrainOps`), so every theorem
below holds for an arbitrary deterministic fitting backend.
-/

/-- One entry of the `doctor_features` list passed to `assign_doctor`
(built in `app.py` `book_appointment` from integer DB columns). -/
structure DocInfo where
  doctor_id : ℤ
  current_queue : ℤ
  avg_consultation_time : ℤ
  today_appointments : ℤ
  max_capacity : ℤ
deriving DecidableEq, Repr

/-- `load_ratio = today_load / max_capacity if max_capacity > 0 else 0`
(ml_queue_manager.py line 106). -/
def loadRatioQ (doc : DocInfo) : ℚ :=
  if doc.max_capacity > 0 then (doc.today_appointments : ℚ) / (doc.max_capacity : ℚ) else 0

/-- The ordered 5-feature vector assembled at lines 110-116. -/
structure FeatureVec where
  queue_length : ℚ
  avg_consultation_time : ℚ
  hour_of_day : ℚ
  day_of_week : ℚ
  doctor_efficiency : ℚ
deriving DecidableEq, Repr

/-- Feature construction inside the `assign_doctor` loop (lines 100-116):
`efficiency = 1.0 - (load_ratio * 0.3)` with no clamping of the load ratio. -/
def buildFeatures (doc : DocInfo) (hour day : ℤ) : FeatureVec :=
  { queue_length := (doc.current_queue : ℚ)
    avg_consultation_time := (doc.avg_consultation_time : ℚ)
    hour_of_day := (hour : ℚ)
    day_of_week := (day : ℚ)
    doctor_efficiency := 1 - loadRatioQ doc * (3/10) }

/-- Python-level failures observable from the assignment core.
`notFittedError` is sklearn's exception for using an unfitted estimator;
`overflowError` is raised by `int(float('inf'))`.  `noCandidateError` is the
defined error value named by the specification (it never occurs in the code;
it is included so that statements about it can be made). -/
inductive PyError where
  | notFittedError
  | overflowError
  | noCandidateError
deriving DecidableEq, Repr

/-- State of a `QueueMLModel` object: the scaler and regressor are `some`
fitted function or `none` (unfitted), plus the `is_trained` flag. -/
structure QueueMLModel where
  scaler : Option (FeatureVec → FeatureVec)
  wait_time_model : Option (FeatureVec → ℚ)
  is_trained : Bool

/-- The per-candidate prediction path of `assign_doctor` (lines 119-122):
`self.scaler.transform(features)` then `self.wait_time_model.predict(...)`.
Neither call consults `is_trained`; an unfitted estimator raises
`NotFittedError` (the scaler first, as in the source order). -/
def predictWait (m : QueueMLModel) (fv : FeatureVec) : Except PyError ℚ :=
  match m.scaler with
  | none => .error .notFittedError
  | some tr =>
    match m.wait_time_model with
    | none => .error .notFittedError
    | some pr => .ok (pr (tr fv))

/-- Python's `int()` on a float: truncation toward zero. -/
def pyInt (q : ℚ) : ℤ :=
  if q < 0 then ⌈q⌉ else ⌊q⌋

/-- `w < min_wait_time` where `min_wait_time` starts at `float('inf')`
(`none` models infinity). -/
def ltInfB (w : ℚ) : Option ℚ → Bool
  | none => true
  | some mw => decide (w < mw)

/-- The selection loop of `assign_doctor` (lines 98-131).  The accumulator is
`(best_doctor_id, min_wait_time)` with `none` standing for the initial
`None` / `float('inf')`.  A prediction failure aborts the loop, as a raised
exception would. -/
def assignLoop (m : QueueMLModel) (hour day : ℤ) :
    List DocInfo → Option ℤ × Option ℚ → Except PyError (Option ℤ × Option ℚ)
  | [], acc => .ok acc
  | doc :: rest, (best, minW) =>
    match predictWait m (buildFeatures doc hour day) with
    | .error e => .error e
    | .ok w0 =>
      let w := if loadRatioQ doc > 4/5 then w0 * (13/10) else w0
      if ltInfB w minW then assignLoop m hour day rest (some doc.doctor_id, some w)
      else assignLoop m hour day rest (best, minW)

/-- The patient record as used by the core (`app.py` model `Patient`):
only `age` and `medical_history` are read by `calculate_priority`;
`assign_doctor` receives the patient but never reads it. -/
structure Patient where
  age : ℤ
  medical_history : List Char
deriving DecidableEq, Repr

/-- `assign_doctor` (lines 81-133).  The current hour and weekday, read from
`datetime.now()` inside the Python function, are explicit inputs of the
embedding.  Returns `(best_doctor_id, int(min_wait_time))`; with an empty
candidate list `min_wait_time` is still `float('inf')` and `int(...)` raises
`OverflowError`. -/
def assign_doctor (m : QueueMLModel) (docs : List DocInfo) (patient : Patient)
    (hour day : ℤ) : Except PyError (Option ℤ × ℤ) :=
  match assignLoop m hour day docs (none, none) with
  | .error e => .error e
  | .ok (best, some mw) => .ok (best, pyInt mw)
  | .ok (_, none) => .error .overflowError

/-- `matchesAt k s` : `k` is a prefix of `s` (character-wise equality). -/
def matchesAt : List Char → List Char → Bool
  | [], _ => true
  | _ :: _, [] => false
  | c :: k, d :: s => c == d && matchesAt k s

/-- `containsSub k s` : Python's `k in s` for strings — `k` occurs in `s`
as a contiguous substring. -/
def containsSub (k : List Char) : List Char → Bool
  | [] => matchesAt k []
  | c :: rest => matchesAt k (c :: rest) || containsSub k rest

/-- The fixed keyword list of `calculate_priority` (lines 156-157). -/
def emergencyKeywords : List (List Char) :=
  ["heart".data, "chest pain".data, "breathing".data, "diabetic".data,
   "emergency".data, "severe".data, "acute".data, "critical".data]

/-- The `for keyword in emergency_keywords: ... break` loop (lines 160-163):
adds `0.1` for the first matching keyword only. -/
def keywordBoost (hist : List Char) : List (List Char) → ℚ
  | [] => 0
  | k :: rest => if containsSub k hist then 1/10 else keywordBoost hist rest

/-- `calculate_priority` (lines 135-166). -/
def calculate_priority (patient : Patient) : ℚ :=
  let p1 : ℚ := 1/2
  let p2 : ℚ :=
    if patient.age > 65 then p1 + 2/10
    else if patient.age < 5 then p1 + 15/100
    else p1
  let p3 : ℚ :=
    if patient.medical_history.isEmpty then p2
    else p2 + keywordBoost (patient.medical_history.map Char.toLower) emergencyKeywords
  min p3 1

/-- One element of `appointment_data` in `update_model` (lines 182-191). -/
structure Sample where
  queue_length : ℚ
  avg_consultation_time : ℚ
  hour_of_day : ℚ
  day_of_week : ℚ
  doctor_efficiency : ℚ
  actual_wait_time : ℚ
deriving DecidableEq, Repr

/-- The feature row extracted from one appointment record (lines 183-189). -/
def sampleFeatures (s : Sample) : FeatureVec :=
  { queue_length := s.queue_length
    avg_consultation_time := s.avg_consultation_time
    hour_of_day := s.hour_of_day
    day_of_week := s.day_of_week
    doctor_efficiency := s.doctor_efficiency }

/-- Abstract fitting backends: `scalerFit` is `StandardScaler.fit` (the
returned function is the fitted `transform`), `regressorFit` is
`RandomForestRegressor.fit` (the returned function is the fitted `predict`).
Both are deterministic functions of their training data, matching the fixed
`random_state=42` of the source. -/
structure TrainOps where
  scalerFit : List FeatureVec → FeatureVec → FeatureVec
  regressorFit : List FeatureVec → List ℚ → FeatureVec → ℚ

/-- Result marker for `update_model`: `Skipped` is the early `return` of the
`len(appointment_data) < 50` branch, `Updated` the retraining path. -/
inductive UpdateResult where
  | Skipped
  | Updated
deriving DecidableEq, Repr

/-- `update_model` (lines 168-204): below 50 samples nothing happens;
otherwise the scaler is refit on exactly the batch
(`self.scaler.fit_transform(X_new)`) and the regressor refit on the freshly
scaled features (`self.wait_time_model.fit(X_scaled, y_new)`).  The
`is_trained` flag is not touched by the source. -/
def update_model (ops : TrainOps) (m : QueueMLModel) (batch : List Sample) :
    UpdateResult × QueueMLModel :=
  if batch.length < 50 then (.Skipped, m)
  else
    let xNew := batch.map sampleFeatures
    let yNew := batch.map Sample.actual_wait_time
    let tr := ops.scalerFit xNew
    (.Updated,
      { scaler := some tr
        wait_time_model := some (ops.regressorFit (xNew.map tr) yNew)
        is_trained := m.is_trained })

/-- `_load_model` (lines 30-42): the filesystem/joblib outcome is the
`loaded` argument — `some (transform, predict)` when both pickles load,
`none` when files are missing or loading throws (the `except` branch only
prints). -/
def load_model (loaded : Option ((FeatureVec → FeatureVec) × (FeatureVec → ℚ)))
    (m : QueueMLModel) : QueueMLModel :=
  match loaded with
  | some (tr, pr) => { scaler := some tr, wait_time_model := some pr, is_trained := true }
  | none => m

/-- `_train_initial_model` (lines 44-79): fit the scaler and the regressor on
the synthetic bootstrap set (whose numeric generation by seeded numpy is
abstracted as the lists `sX`, `sY`) and set `is_trained = True`. -/
def train_initial_model (ops : TrainOps) (sX : List FeatureVec) (sY : List ℚ)
    (_m : QueueMLModel) : QueueMLModel :=
  let tr := ops.scalerFit sX
  { scaler := some tr
    wait_time_model := some (ops.regressorFit (sX.map tr) sY)
    is_trained := true }

/-- `__init__` (lines 14-28): start from unfitted estimators and
`is_trained = False`, try `_load_model`, and if still untrained run
`_train_initial_model`. -/
def initQueueMLModel (loaded : Option ((FeatureVec → FeatureVec) × (FeatureVec → ℚ)))
    (ops : TrainOps) (sX : List FeatureVec) (sY : List ℚ) : QueueMLModel :=
  let m0 : QueueMLModel := { scaler := none, wait_time_model := none, is_trained := false }
  let m1 := load_model loaded m0
  if m1.is_trained then m1 else train_initial_model ops sX sY m1

/-- The priority sum before the final `min(priority, 1.0)` clamp
(lines 146-163 of `calculate_priority`). -/
def priorityUnclamped (patient : Patient) : ℚ :=
  let p1 : ℚ := 1/2
  let p2 : ℚ :=
    if patient.age > 65 then p1 + 2/10
    else if patient.age < 5 then p1 + 15/100
    else p1
  if patient.medical_history.isEmpty then p2
  else p2 + keywordBoost (patient.medical_history.map Char.toLower) emergencyKeywords

/-- Whether any emergency keyword occurs in the lower-cased history. -/
def anyKeyword (hist : List Char) : Bool :=
  emergencyKeywords.any fun k => containsSub k (hist.map Char.toLower)

lemma calculate_priority_eq_min (p : Patient) :
    calculate_priority p = min (priorityUnclamped p) 1 := rfl

lemma keywordBoost_eq_any (hist : List Char) :
    ∀ ks : List (List Char),
      keywordBoost hist ks = if ks.any (fun k => containsSub k hist) then 1/10 else 0
  | [] => by simp [keywordBoost]
  | k :: rest => by
    by_cases h : containsSub k hist
    · simp [keywordBoost, h]
    · simp [keywordBoost, h, keywordBoost_eq_any hist rest]

lemma priorityUnclamped_closed (p : Patient) :
    priorityUnclamped p =
      1/2 + (if p.age > 65 then 2/10 else if p.age < 5 then 15/100 else 0)
        + (if anyKeyword p.medical_history then 1/10 else 0) := by
  obtain ⟨age, hist⟩ := p
  unfold priorityUnclamped anyKeyword
  cases hist with
  | nil =>
    have hk : (emergencyKeywords.any fun k => containsSub k (List.map Char.toLower [])) = false := rfl
    simp only [hk, List.isEmpty_nil, if_true, Bool.false_eq_true, if_false]
    split_ifs <;> ring
  | cons c rest =>
    simp only [List.isEmpty_cons, Bool.false_eq_true, if_false, keywordBoost_eq_any]
    split_ifs <;> ring

lemma calculate_priority_closed (p : Patient) :
    calculate_priority p =
      min (1/2 + (if p.age > 65 then 2/10 else if p.age < 5 then 15/100 else 0)
        + (if anyKeyword p.medical_history then 1/10 else 0)) 1 := by
  rw [calculate_priority_eq_min, priorityUnclamped_closed]

lemma priorityUnclamped_le (p : Patient) : priorityUnclamped p ≤ 4/5 := by
  rw [priorityUnclamped_closed]
  split_ifs <;> norm_num

lemma priorityUnclamped_ge (p : Patient) : 1/2 ≤ priorityUnclamped p := by
  rw [priorityUnclamped_closed]
  split_ifs <;> norm_num

/-- C4: the priority score is `min` of `0.5`, plus `0.2` for `age > 65` else
`0.15` for `age < 5` (mutually exclusive), plus `0.1` exactly once when any
of the eight emergency keywords occurs case-insensitively in the history,
clamped at `1.0`; and the two worked examples: `score(70, "") = 0.7` and
`score(3, "patient has severe chest pain") = 0.75`. -/
theorem c4_priority_formula_and_examples :
    (∀ p : Patient,
      calculate_priority p =
        min (1/2 + (if p.age > 65 then 2/10 else if p.age < 5 then 15/100 else 0)
          + (if anyKeyword p.medical_history then 1/10 else 0)) 1)
    ∧ calculate_priority ⟨70, []⟩ = 7/10
    ∧ calculate_priority ⟨3, "patient has severe chest pain".data⟩ = 3/4 := by
  refine ⟨calculate_priority_closed, ?_, ?_⟩
  · have h := calculate_priority_closed ⟨70, []⟩
    have hk : anyKeyword ([] : List Char) = false := rfl
    rw [hk] at h
    rw [h]
    norm_num
  · have h := calculate_priority_closed ⟨3, "patient has severe chest pain".data⟩
    have hk : anyKeyword "patient has severe chest pain".data = true := rfl
    rw [hk] at h
    rw [h]
    norm_num

/-- C5: for every patient profile with a non-negative age the priority score
lies between `0.5` and `1.0`. -/
theorem c5_priority_bounds (p : Patient) (h : 0 ≤ p.age) :
    1/2 ≤ calculate_priority p ∧ calculate_priority p ≤ 1 := by
  rw [calculate_priority_eq_min]
  constructor
  · exact le_min (priorityUnclamped_ge p) (by norm_num)
  · exact min_le_right _ _

/-- C5 witness: the bounds at the concrete patient `(age 30, empty history)`. -/
theorem c5_priority_bounds_witness :
    1/2 ≤ calculate_priority ⟨30, []⟩ ∧ calculate_priority ⟨30, []⟩ ≤ 1 :=
  c5_priority_bounds ⟨30, []⟩ (by norm_num)

/-- C10: the priority score never exceeds `0.8`, so the final clamp at `1.0`
never binds (`calculate_priority` equals the unclamped sum) and the value
`1.0` is unreachable. -/
theorem c10_priority_le_point_eight (p : Patient) (h : 0 ≤ p.age) :
    calculate_priority p ≤ 4/5
    ∧ calculate_priority p = priorityUnclamped p
    ∧ calculate_priority p < 1 := by
  have hle := priorityUnclamped_le p
  have heq : calculate_priority p = priorityUnclamped p := by
    rw [calculate_priority_eq_min]
    exact min_eq_left (le_trans hle (by norm_num))
  refine ⟨heq ▸ hle, heq, ?_⟩
  rw [heq]
  exact lt_of_le_of_lt hle (by norm_num)

/-- C10 witness: the ceiling facts at the concrete patient
`(age 70, history "severe")`, which attains the maximal score `0.8`. -/
theorem c10_priority_le_point_eight_witness :
    calculate_priority ⟨70, "severe".data⟩ ≤ 4/5
    ∧ calculate_priority ⟨70, "severe".data⟩ = priorityUnclamped ⟨70, "severe".data⟩
    ∧ calculate_priority ⟨70, "severe".data⟩ < 1 :=
  c10_priority_le_point_eight ⟨70, "severe".data⟩ (by norm_num)

/-- The raw model prediction for one candidate, for a fitted model whose
scaler transform is `tr` and whose regressor predict is `pr`
(lines 110-122 of `assign_doctor`). -/
def rawWait (tr : FeatureVec → FeatureVec) (pr : FeatureVec → ℚ)
    (hour day : ℤ) (doc : DocInfo) : ℚ :=
  pr (tr (buildFeatures doc hour day))

/-- The adjusted wait entering the minimum comparison: the raw prediction,
multiplied by `1.3` when the load ratio exceeds `0.8` (lines 124-126). -/
def adjWait (tr : FeatureVec → FeatureVec) (pr : FeatureVec → ℚ)
    (hour day : ℤ) (doc : DocInfo) : ℚ :=
  if loadRatioQ doc > 4/5 then rawWait tr pr hour day doc * (13/10)
  else rawWait tr pr hour day doc

/-- The selection loop specialised to a fitted model: pure accumulator pass
over the per-candidate adjusted waits `f`. -/
def selLoop (f : DocInfo → ℚ) : List DocInfo → Option ℤ × Option ℚ → Option ℤ × Option ℚ
  | [], acc => acc
  | doc :: rest, (best, minW) =>
    if ltInfB (f doc) minW then selLoop f rest (some doc.doctor_id, some (f doc))
    else selLoop f rest (best, minW)

lemma assignLoop_fitted (tr : FeatureVec → FeatureVec) (pr : FeatureVec → ℚ)
    (b : Bool) (hour day : ℤ) :
    ∀ (docs : List DocInfo) (acc : Option ℤ × Option ℚ),
      assignLoop ⟨some tr, some pr, b⟩ hour day docs acc
        = .ok (selLoop (adjWait tr pr hour day) docs acc)
  | [], _ => rfl
  | doc :: rest, (best, minW) => by
    have hstep : assignLoop ⟨some tr, some pr, b⟩ hour day (doc :: rest) (best, minW)
        = if ltInfB (adjWait tr pr hour day doc) minW then
            assignLoop ⟨some tr, some pr, b⟩ hour day rest
              (some doc.doctor_id, some (adjWait tr pr hour day doc))
          else assignLoop ⟨some tr, some pr, b⟩ hour day rest (best, minW) := rfl
    have hsel : selLoop (adjWait tr pr hour day) (doc :: rest) (best, minW)
        = if ltInfB (adjWait tr pr hour day doc) minW then
            selLoop (adjWait tr pr hour day) rest
              (some doc.doctor_id, some (adjWait tr pr hour day doc))
          else selLoop (adjWait tr pr hour day) rest (best, minW) := rfl
    rw [hstep, hsel]
    by_cases hlt : ltInfB (adjWait tr pr hour day doc) minW = true
    · rw [if_pos hlt, if_pos hlt,
        assignLoop_fitted tr pr b hour day rest (some doc.doctor_id, some (adjWait tr pr hour day doc))]
    · rw [if_neg hlt, if_neg hlt, assignLoop_fitted tr pr b hour day rest (best, minW)]

lemma selLoop_spec (f : DocInfo → ℚ) :
    ∀ (docs : List DocInfo) (b : ℤ) (w : ℚ),
      (selLoop f docs (some b, some w) = (some b, some w) ∧ ∀ doc ∈ docs, w ≤ f doc)
      ∨ ∃ (i : ℕ) (hi : i < docs.length),
          selLoop f docs (some b, some w)
            = (some (docs.get ⟨i, hi⟩).doctor_id, some (f (docs.get ⟨i, hi⟩)))
          ∧ f (docs.get ⟨i, hi⟩) < w
          ∧ (∀ doc ∈ docs, f (docs.get ⟨i, hi⟩) ≤ f doc)
          ∧ (∀ j (hj : j < docs.length), j < i → f (docs.get ⟨i, hi⟩) < f (docs.get ⟨j, hj⟩))
  | [], b, w => Or.inl ⟨rfl, by simp⟩
  | doc :: rest, b, w => by
    have hstep : ∀ (b0 : ℤ) (w0 : ℚ), selLoop f (doc :: rest) (some b0, some w0)
        = if ltInfB (f doc) (some w0) then selLoop f rest (some doc.doctor_id, some (f doc))
          else selLoop f rest (some b0, some w0) := fun _ _ => rfl
    by_cases hlt : f doc < w
    · have hb : ltInfB (f doc) (some w) = true := by simp [ltInfB, hlt]
      rw [hstep b w, if_pos hb]
      rcases selLoop_spec f rest doc.doctor_id (f doc) with
        ⟨heq, hall⟩ | ⟨i, hi, heq, hlt2, hmin, hfirst⟩
      · refine Or.inr ⟨0, by simp, ?_, ?_, ?_, ?_⟩
        · exact heq
        · exact hlt
        · intro d hd
          rcases List.mem_cons.mp hd with rfl | hd
          · exact le_refl _
          · exact hall d hd
        · intro j hj hj0
          omega
      · refine Or.inr ⟨i + 1, Nat.succ_lt_succ hi, ?_, ?_, ?_, ?_⟩
        · exact heq
        · exact lt_trans hlt2 hlt
        · intro d hd
          rcases List.mem_cons.mp hd with rfl | hd
          · exact le_of_lt hlt2
          · exact hmin d hd
        · intro j hj hj0
          match j, hj, hj0 with
          | 0, hj, _ => exact hlt2
          | j' + 1, hj, hj0 =>
            exact hfirst j' (Nat.lt_of_succ_lt_succ hj) (Nat.lt_of_succ_lt_succ hj0)
    · have hb : ltInfB (f doc) (some w) = false := by simp [ltInfB, hlt]
      rw [hstep b w, hb]
      simp only [Bool.false_eq_true, if_false]
      rcases selLoop_spec f rest b w with
        ⟨heq, hall⟩ | ⟨i, hi, heq, hlt2, hmin, hfirst⟩
      · refine Or.inl ⟨heq, ?_⟩
        intro d hd
        rcases List.mem_cons.mp hd with rfl | hd
        · exact not_lt.mp hlt
        · exact hall d hd
      · refine Or.inr ⟨i + 1, Nat.succ_lt_succ hi, ?_, ?_, ?_, ?_⟩
        · exact heq
        · exact hlt2
        · intro d hd
          rcases List.mem_cons.mp hd with rfl | hd
          · exact le_of_lt (lt_of_lt_of_le hlt2 (not_lt.mp hlt))
          · exact hmin d hd
        · intro j hj hj0
          match j, hj, hj0 with
          | 0, hj, _ => exact lt_of_lt_of_le hlt2 (not_lt.mp hlt)
          | j' + 1, hj, hj0 =>
            exact hfirst j' (Nat.lt_of_succ_lt_succ hj) (Nat.lt_of_succ_lt_succ hj0)

lemma pyInt_eq_floor (q : ℚ) (h : 0 ≤ q) : pyInt q = ⌊q⌋ := by
  unfold pyInt
  rw [if_neg (not_lt.mpr h)]

lemma assign_doctor_fitted (tr : FeatureVec → FeatureVec) (pr : FeatureVec → ℚ)
    (b : Bool) (patient : Patient) (hour day : ℤ) (docs : List DocInfo) :
    assign_doctor ⟨some tr, some pr, b⟩ docs patient hour day
      = match selLoop (adjWait tr pr hour day) docs (none, none) with
        | (best, some mw) => .ok (best, pyInt mw)
        | (_, none) => .error .overflowError := by
  unfold assign_doctor
  rw [assignLoop_fitted]
  rcases selLoop (adjWait tr pr hour day) docs (none, none) with ⟨best, mw⟩
  cases mw <;> rfl

/-- C1: on a non-empty candidate list (with every adjusted prediction
non-negative, as the regressor trained on non-negative targets guarantees),
`assign_doctor` returns the `doctor_id` of a candidate present in the input,
namely the first one attaining the strictly smallest adjusted wait, and the
returned wait is the floor of that minimum. -/
theorem c1_select_first_argmin_floor (tr : FeatureVec → FeatureVec)
    (pr : FeatureVec → ℚ) (b : Bool) (patient : Patient) (hour day : ℤ)
    (docs : List DocInfo) (hne : docs ≠ [])
    (hnn : ∀ doc ∈ docs, 0 ≤ adjWait tr pr hour day doc) :
    ∃ (i : ℕ) (hi : i < docs.length),
      assign_doctor ⟨some tr, some pr, b⟩ docs patient hour day
        = .ok (some (docs.get ⟨i, hi⟩).doctor_id, ⌊adjWait tr pr hour day (docs.get ⟨i, hi⟩)⌋)
      ∧ (∀ doc ∈ docs, adjWait tr pr hour day (docs.get ⟨i, hi⟩) ≤ adjWait tr pr hour day doc)
      ∧ (∀ j (hj : j < docs.length), j < i →
          adjWait tr pr hour day (docs.get ⟨i, hi⟩) < adjWait tr pr hour day (docs.get ⟨j, hj⟩)) := by
  set f := adjWait tr pr hour day with hf
  cases docs with
  | nil => exact absurd rfl hne
  | cons d rest =>
    have hstep : selLoop f (d :: rest) (none, none)
        = selLoop f rest (some d.doctor_id, some (f d)) := rfl
    have hmain := assign_doctor_fitted tr pr b patient hour day (d :: rest)
    rw [hstep] at hmain
    rcases selLoop_spec f rest d.doctor_id (f d) with
      ⟨heq, hall⟩ | ⟨i, hi, heq, hlt2, hmin, hfirst⟩
    · rw [heq] at hmain
      have hmain' : assign_doctor ⟨some tr, some pr, b⟩ (d :: rest) patient hour day
          = .ok (some d.doctor_id, pyInt (f d)) := hmain
      refine ⟨0, by simp, ?_, ?_, ?_⟩
      · rw [hmain', pyInt_eq_floor _ (hnn d (List.mem_cons_self d rest))]
        rfl
      · intro doc hd
        rcases List.mem_cons.mp hd with rfl | hd
        · exact le_refl _
        · exact hall doc hd
      · intro j hj hj0
        omega
    · rw [heq] at hmain
      have hmain' : assign_doctor ⟨some tr, some pr, b⟩ (d :: rest) patient hour day
          = .ok (some (rest.get ⟨i, hi⟩).doctor_id, pyInt (f (rest.get ⟨i, hi⟩))) := hmain
      have hmem : rest.get ⟨i, hi⟩ ∈ d :: rest :=
        List.mem_cons_of_mem d (List.get_mem rest i hi)
      refine ⟨i + 1, Nat.succ_lt_succ hi, ?_, ?_, ?_⟩
      · rw [hmain', pyInt_eq_floor _ (hnn _ hmem)]
        rfl
      · intro doc hd
        rcases List.mem_cons.mp hd with rfl | hd
        · exact le_of_lt hlt2
        · exact hmin doc hd
      · intro j hj hj0
        match j, hj, hj0 with
        | 0, hj, _ => exact hlt2
        | j' + 1, hj, hj0 =>
          exact hfirst j' (Nat.lt_of_succ_lt_succ hj) (Nat.lt_of_succ_lt_succ hj0)

/-- C1 witness: a concrete two-candidate run (identity scaler, regressor
reading the queue-length feature) in which the second candidate wins. -/
theorem c1_select_first_argmin_floor_witness :
    ∃ (i : ℕ) (hi : i < ([⟨1, 7, 10, 0, 10⟩, ⟨2, 3, 10, 0, 10⟩] : List DocInfo).length),
      assign_doctor ⟨some (fun fv => fv), some (fun fv => fv.queue_length), true⟩
          [⟨1, 7, 10, 0, 10⟩, ⟨2, 3, 10, 0, 10⟩] ⟨30, []⟩ 12 3
        = .ok (some (([⟨1, 7, 10, 0, 10⟩, ⟨2, 3, 10, 0, 10⟩] : List DocInfo).get ⟨i, hi⟩).doctor_id,
            ⌊adjWait (fun fv => fv) (fun fv => fv.queue_length) 12 3
              (([⟨1, 7, 10, 0, 10⟩, ⟨2, 3, 10, 0, 10⟩] : List DocInfo).get ⟨i, hi⟩)⌋)
      ∧ (∀ doc ∈ ([⟨1, 7, 10, 0, 10⟩, ⟨2, 3, 10, 0, 10⟩] : List DocInfo),
          adjWait (fun fv => fv) (fun fv => fv.queue_length) 12 3
              (([⟨1, 7, 10, 0, 10⟩, ⟨2, 3, 10, 0, 10⟩] : List DocInfo).get ⟨i, hi⟩)
            ≤ adjWait (fun fv => fv) (fun fv => fv.queue_length) 12 3 doc)
      ∧ (∀ j (hj : j < ([⟨1, 7, 10, 0, 10⟩, ⟨2, 3, 10, 0, 10⟩] : List DocInfo).length), j < i →
          adjWait (fun fv => fv) (fun fv => fv.queue_length) 12 3
              (([⟨1, 7, 10, 0, 10⟩, ⟨2, 3, 10, 0, 10⟩] : List DocInfo).get ⟨i, hi⟩)
            < adjWait (fun fv => fv) (fun fv => fv.queue_length) 12 3
              (([⟨1, 7, 10, 0, 10⟩, ⟨2, 3, 10, 0, 10⟩] : List DocInfo).get ⟨j, hj⟩)) :=
  c1_select_first_argmin_floor (fun fv => fv) (fun fv => fv.queue_length) true ⟨30, []⟩ 12 3
    [⟨1, 7, 10, 0, 10⟩, ⟨2, 3, 10, 0, 10⟩] (by simp)
    (by
      intro doc hd
      rcases List.mem_cons.mp hd with rfl | hd
      · norm_num [adjWait, rawWait, loadRatioQ, buildFeatures]
      · rcases List.mem_cons.mp hd with rfl | hd
        · norm_num [adjWait, rawWait, loadRatioQ, buildFeatures]
        · exact absurd hd (List.not_mem_nil _))

/-- C2: inside `assign_doctor`, a candidate whose load ratio exceeds `0.8`
has its raw predicted wait multiplied by exactly `1.3` before the minimum
comparison, and a candidate with load ratio at most `0.8` gets no penalty —
shown on single-candidate runs through the full pipeline. -/
theorem c2_overload_penalty (tr : FeatureVec → FeatureVec) (pr : FeatureVec → ℚ)
    (b : Bool) (patient : Patient) (hour day : ℤ) (doc : DocInfo) :
    (loadRatioQ doc > 4/5 →
      assign_doctor ⟨some tr, some pr, b⟩ [doc] patient hour day
        = .ok (some doc.doctor_id, pyInt (rawWait tr pr hour day doc * (13/10))))
    ∧ (loadRatioQ doc ≤ 4/5 →
      assign_doctor ⟨some tr, some pr, b⟩ [doc] patient hour day
        = .ok (some doc.doctor_id, pyInt (rawWait tr pr hour day doc))) := by
  have hmain := assign_doctor_fitted tr pr b patient hour day [doc]
  have hone : selLoop (adjWait tr pr hour day) [doc] (none, none)
      = (some doc.doctor_id, some (adjWait tr pr hour day doc)) := rfl
  rw [hone] at hmain
  constructor
  · intro hgt
    rw [hmain]
    unfold adjWait
    rw [if_pos hgt]
  · intro hle
    rw [hmain]
    unfold adjWait
    rw [if_neg (not_lt.mpr hle)]

/-- C2 witness: two otherwise-identical candidates whose load ratios
straddle `0.8` (9/10 versus 1/2), one penalised and one not. -/
theorem c2_overload_penalty_witness :
    assign_doctor ⟨some (fun fv => fv), some (fun fv => fv.queue_length), true⟩
        [⟨1, 7, 10, 9, 10⟩] ⟨30, []⟩ 12 3
      = .ok (some 1, pyInt (rawWait (fun fv => fv) (fun fv => fv.queue_length) 12 3
          ⟨1, 7, 10, 9, 10⟩ * (13/10)))
    ∧ assign_doctor ⟨some (fun fv => fv), some (fun fv => fv.queue_length), true⟩
        [⟨1, 7, 10, 5, 10⟩] ⟨30, []⟩ 12 3
      = .ok (some 1, pyInt (rawWait (fun fv => fv) (fun fv => fv.queue_length) 12 3
          ⟨1, 7, 10, 5, 10⟩)) :=
  ⟨(c2_overload_penalty (fun fv => fv) (fun fv => fv.queue_length) true ⟨30, []⟩ 12 3
      ⟨1, 7, 10, 9, 10⟩).1 (by norm_num [loadRatioQ]),
   (c2_overload_penalty (fun fv => fv) (fun fv => fv.queue_length) true ⟨30, []⟩ 12 3
      ⟨1, 7, 10, 5, 10⟩).2 (by norm_num [loadRatioQ])⟩

/-- C9: `assign_doctor` is deterministic — its result depends only on the
candidate list, the patient, the clock values and the estimator snapshot
(scaler and regressor); two model states agreeing on the snapshot give
identical results regardless of any other state (e.g. the flag). -/
theorem c9_select_deterministic (s s' : QueueMLModel) (docs : List DocInfo)
    (patient : Patient) (hour day : ℤ)
    (h1 : s.scaler = s'.scaler) (h2 : s.wait_time_model = s'.wait_time_model) :
    assign_doctor s docs patient hour day = assign_doctor s' docs patient hour day := by
  have hp : ∀ fv, predictWait s fv = predictWait s' fv := by
    intro fv
    unfold predictWait
    rw [h1, h2]
  have hl : ∀ (ds : List DocInfo) (acc : Option ℤ × Option ℚ),
      assignLoop s hour day ds acc = assignLoop s' hour day ds acc := by
    intro ds
    induction ds with
    | nil => intro acc; rfl
    | cons doc rest ih =>
      intro acc
      obtain ⟨best, minW⟩ := acc
      simp only [assignLoop, hp, ih]
  unfold assign_doctor
  rw [hl]

/-- C9 witness: two concrete states sharing the fitted snapshot but
differing in `is_trained` give the same result on a concrete call. -/
theorem c9_select_deterministic_witness :
    assign_doctor ⟨some (fun fv => fv), some (fun _ => (5 : ℚ)), true⟩
        [⟨1, 7, 10, 0, 10⟩] ⟨30, []⟩ 12 3
      = assign_doctor ⟨some (fun fv => fv), some (fun _ => (5 : ℚ)), false⟩
        [⟨1, 7, 10, 0, 10⟩] ⟨30, []⟩ 12 3 :=
  c9_select_deterministic ⟨some (fun fv => fv), some (fun _ => (5 : ℚ)), true⟩
    ⟨some (fun fv => fv), some (fun _ => (5 : ℚ)), false⟩
    [⟨1, 7, 10, 0, 10⟩] ⟨30, []⟩ 12 3 rfl rfl

/-- C7 counterexample: on an empty candidate list the code does fail, but
with the `OverflowError` raised by `int(float('inf'))` — not with the
specification's defined `NoCandidateError`. -/
theorem c7_no_candidate_counterexample :
    assign_doctor ⟨some (fun fv => fv), some (fun _ => (5 : ℚ)), true⟩ [] ⟨30, []⟩ 12 3
      = .error .overflowError
    ∧ assign_doctor ⟨some (fun fv => fv), some (fun _ => (5 : ℚ)), true⟩ [] ⟨30, []⟩ 12 3
      ≠ .error .noCandidateError := by
  refine ⟨rfl, ?_⟩
  intro h
  exact absurd (Except.error.inj h) (by simp)

/-- C7 amended: `assign_doctor` on an empty candidate list always fails, but
the failure is the untyped `OverflowError` from `int(float('inf'))` rather
than a defined `NoCandidateError`; non-emptiness is enforced by the caller
(`book_appointment` returns its own "No doctors available" error first). -/
theorem c7_empty_candidates_fail (m : QueueMLModel) (patient : Patient) (hour day : ℤ) :
    assign_doctor m [] patient hour day = .error .overflowError := rfl

/-- C3 counterexample: for a doctor with `appointments_today = 10` and
`max_daily_capacity = 2` (load ratio 5) the code computes efficiency
`1 - 5*0.3 = -0.5`, while the claimed formula `1 - min(load_ratio,1)*0.3`
gives `0.7`; the claimed range `(0, 1]` also fails. -/
theorem c3_efficiency_counterexample :
    (buildFeatures ⟨1, 0, 10, 10, 2⟩ 0 0).doctor_efficiency = -(1/2)
    ∧ (1 : ℚ) - min (loadRatioQ ⟨1, 0, 10, 10, 2⟩) 1 * (3/10) = 7/10
    ∧ (buildFeatures ⟨1, 0, 10, 10, 2⟩ 0 0).doctor_efficiency
        ≠ 1 - min (loadRatioQ ⟨1, 0, 10, 10, 2⟩) 1 * (3/10)
    ∧ ¬ 0 < (buildFeatures ⟨1, 0, 10, 10, 2⟩ 0 0).doctor_efficiency := by
  have hlr : loadRatioQ ⟨1, 0, 10, 10, 2⟩ = 5 := by norm_num [loadRatioQ]
  have hmin : min (loadRatioQ ⟨1, 0, 10, 10, 2⟩) 1 = 1 := by rw [hlr]; norm_num
  have heff : (buildFeatures ⟨1, 0, 10, 10, 2⟩ 0 0).doctor_efficiency = -(1/2) := by
    show (1 : ℚ) - loadRatioQ ⟨1, 0, 10, 10, 2⟩ * (3/10) = -(1/2)
    rw [hlr]; norm_num
  refine ⟨heff, by rw [hmin]; norm_num, ?_, ?_⟩
  · rw [heff, hmin]; norm_num
  · rw [heff]; norm_num

/-- C3 amended: the feature builder computes
`doctor_efficiency = 1 - load_ratio * 0.3` with NO clamping of the load
ratio (load ratio taken as 0 when capacity ≤ 0); the range `(0, 1]` holds
under the additional condition `0 ≤ appointments_today ≤ max_daily_capacity`. -/
theorem c3_efficiency_amended (doc : DocInfo) (hour day : ℤ)
    (h0 : 0 ≤ doc.today_appointments) (h1 : doc.today_appointments ≤ doc.max_capacity) :
    (buildFeatures doc hour day).doctor_efficiency = 1 - loadRatioQ doc * (3/10)
    ∧ 0 < (buildFeatures doc hour day).doctor_efficiency
    ∧ (buildFeatures doc hour day).doctor_efficiency ≤ 1 := by
  have hlr0 : 0 ≤ loadRatioQ doc := by
    unfold loadRatioQ
    split_ifs with hc
    · apply div_nonneg
      · exact_mod_cast h0
      · exact_mod_cast le_of_lt hc
    · exact le_refl 0
  have hlr1 : loadRatioQ doc ≤ 1 := by
    unfold loadRatioQ
    split_ifs with hc
    · rw [div_le_one (by exact_mod_cast hc)]
      exact_mod_cast h1
    · norm_num
  have heff : (buildFeatures doc hour day).doctor_efficiency
      = 1 - loadRatioQ doc * (3/10) := rfl
  refine ⟨heff, ?_, ?_⟩
  · rw [heff]; linarith
  · rw [heff]; linarith

/-- C3 amended witness: the bounds at a concrete half-loaded doctor. -/
theorem c3_efficiency_amended_witness :
    (buildFeatures ⟨1, 0, 10, 5, 10⟩ 0 0).doctor_efficiency
        = 1 - loadRatioQ ⟨1, 0, 10, 5, 10⟩ * (3/10)
    ∧ 0 < (buildFeatures ⟨1, 0, 10, 5, 10⟩ 0 0).doctor_efficiency
    ∧ (buildFeatures ⟨1, 0, 10, 5, 10⟩ 0 0).doctor_efficiency ≤ 1 :=
  c3_efficiency_amended ⟨1, 0, 10, 5, 10⟩ 0 0 (by norm_num) (by norm_num)

/-- C6: `update_model` with fewer than 50 samples is a no-op (the state is
returned unchanged with a `Skipped` marker); with 50 or more samples it
retrains, the new scaler is fit from scratch on exactly the given batch,
the new regressor on the freshly scaled batch features, and the resulting
estimator state does not depend on the previous one. -/
theorem c6_update_threshold_and_refit (ops : TrainOps) (m m' : QueueMLModel)
    (batch : List Sample) :
    (batch.length < 50 → update_model ops m batch = (UpdateResult.Skipped, m))
    ∧ (50 ≤ batch.length →
        (update_model ops m batch).1 = UpdateResult.Updated
        ∧ (update_model ops m batch).2.scaler
            = some (ops.scalerFit (batch.map sampleFeatures))
        ∧ (update_model ops m batch).2.wait_time_model
            = some (ops.regressorFit
                ((batch.map sampleFeatures).map (ops.scalerFit (batch.map sampleFeatures)))
                (batch.map Sample.actual_wait_time))
        ∧ (update_model ops m batch).2.scaler = (update_model ops m' batch).2.scaler
        ∧ (update_model ops m batch).2.wait_time_model
            = (update_model ops m' batch).2.wait_time_model) := by
  constructor
  · intro h
    unfold update_model
    rw [if_pos h]
  · intro h
    have hn : ¬ batch.length < 50 := not_lt.mpr h
    simp only [update_model, if_neg hn]
    exact ⟨trivial, trivial, trivial, trivial, trivial⟩

/-- C6 witness: an empty batch is skipped; a 50-sample batch retrains. -/
theorem c6_update_threshold_and_refit_witness :
    update_model ⟨fun _ fv => fv, fun _ _ _ => 0⟩ ⟨none, none, false⟩ []
      = (UpdateResult.Skipped, (⟨none, none, false⟩ : QueueMLModel))
    ∧ (update_model ⟨fun _ fv => fv, fun _ _ _ => 0⟩ ⟨none, none, false⟩
        (List.replicate 50 ⟨0, 0, 0, 0, 0, 0⟩)).1 = UpdateResult.Updated :=
  ⟨(c6_update_threshold_and_refit ⟨fun _ fv => fv, fun _ _ _ => 0⟩
      ⟨none, none, false⟩ ⟨none, none, false⟩ []).1 (by simp),
   ((c6_update_threshold_and_refit ⟨fun _ fv => fv, fun _ _ _ => 0⟩
      ⟨none, none, false⟩ ⟨none, none, false⟩
      (List.replicate 50 ⟨0, 0, 0, 0, 0, 0⟩)).2 (by simp)).1⟩

/-- C8 counterexample: a state with fitted estimators but `is_trained =
false` — the predict path succeeds, so the claimed `NotTrainedError` on
`is_trained = false` does not exist in the code (the flag is never
consulted by the predict path). -/
theorem c8_not_trained_counterexample :
    ((⟨some (fun fv => fv), some (fun _ => (5 : ℚ)), false⟩ : QueueMLModel).is_trained = false)
    ∧ predictWait ⟨some (fun fv => fv), some (fun _ => (5 : ℚ)), false⟩ ⟨0, 15, 12, 3, 1⟩
        = .ok 5 :=
  ⟨rfl, rfl⟩

/-- C8 amended: the predict path never reads `is_trained`; it fails (with
the underlying library's `NotFittedError`) exactly when the scaler or the
regressor is unfitted, and after construction (`__init__`: load a persisted
model, else bootstrap-train on synthetic data) the state is always trained
and both estimators fitted, so prediction always succeeds. -/
theorem c8_predict_unfitted_and_bootstrap :
    (∀ loaded ops sX sY,
      (initQueueMLModel loaded ops sX sY).is_trained = true
      ∧ ∀ fv, ∃ w, predictWait (initQueueMLModel loaded ops sX sY) fv = .ok w)
    ∧ (∀ (pr : Option (FeatureVec → ℚ)) (b : Bool) (fv : FeatureVec),
        predictWait ⟨none, pr, b⟩ fv = .error .notFittedError)
    ∧ (∀ (tr : FeatureVec → FeatureVec) (b : Bool) (fv : FeatureVec),
        predictWait ⟨some tr, none, b⟩ fv = .error .notFittedError)
    ∧ (∀ (sc : Option (FeatureVec → FeatureVec)) (pr : Option (FeatureVec → ℚ))
        (b b' : Bool) (fv : FeatureVec),
        predictWait ⟨sc, pr, b⟩ fv = predictWait ⟨sc, pr, b'⟩ fv) := by
  refine ⟨?_, fun pr b fv => rfl, fun tr b fv => rfl, fun sc pr b b' fv => rfl⟩
  intro loaded ops sX sY
  rcases loaded with _ | ⟨tr, pr⟩
  · exact ⟨rfl, fun fv => ⟨_, rfl⟩⟩
  · exact ⟨rfl, fun fv => ⟨_, rfl⟩⟩
